import Mathlib

/-!
# Verification of the pyshort URL shortener

A shallow embedding of the program's core logic, with theorems checking the
specification's claims against it.

* `base62.py` — the base-62 encoder (`encode_base62`).
* `app.py` — the URL validator (`is_valid_url`, built on a model of CPython's
  `urllib.parse.urlsplit`), the `UrlMap` row type, and the route handlers
  `shorten`, `redirect_code`, `stats`, `api_expand`, modelled as explicit
  state-passing functions over a list of rows.

Python `datetime` values are modelled as integers (seconds); `timedelta(days=d)`
is `d * 86400` seconds.  Python `int` is Lean `Int`; nullable columns are
`Option`.
-/

namespace PyShort

/-! ## base62.py -/

/-- `ALPHABET` from `base62.py`. -/
def ALPHABET : String := "0123456789abcdefghijklmnopqrstuvwxyzABCDEFGHIJKLMNOPQRSTUVWXYZ"

/-- The `while n > 0` loop of `encode_base62`: Python appends `ALPHABET[rem]`
for each least-significant digit and reverses at the end; accumulating with
cons produces exactly that reversed list.  `divmod(n, 62)` on a positive `n`
agrees with Lean's `Int` division and modulus, and the index `n % 62` is
always in range, so `getD`'s default is never used.  The loop is run on a
fuel bound: `n` strictly decreases under division by 62, so any fuel of at
least `n.toNat` iterations is enough (`encodeLoop_eq_digits` below is
independent of the fuel). -/
def encodeLoop : Nat → Int → List Char → List Char
  | 0, _, out => out
  | fuel + 1, n, out =>
    if 0 < n then
      encodeLoop fuel (n / 62) (ALPHABET.toList.getD (n % 62).toNat ' ' :: out)
    else
      out

/-- `encode_base62` from `base62.py` (`base = len(ALPHABET) = 62`). -/
def encode_base62 (n : Int) : String :=
  if n = 0 then "0" else String.mk (encodeLoop n.toNat n [])

/-- Digit-to-character table lookup `ALPHABET[d]` (for `d < 62`). -/
def alphaChar (d : Nat) : Char := ALPHABET.toList.getD d ' '

/-- Reference base-62 decoder for the round-trip law: interpret a string as a
positional base-62 numeral, most-significant digit first, where a digit's
value is its index in `ALPHABET`. -/
def decodeBase62 (str : String) : Nat :=
  str.toList.foldl (fun acc c => acc * 62 + ALPHABET.toList.indexOf c) 0

/-! ## app.py: URL validator

`is_valid_url` calls `urllib.parse.urlparse`.  We model the scheme/netloc
logic of CPython's `urlsplit` (which `urlparse` delegates to): strip leading
C0-control/space characters, delete tab/CR/LF anywhere, split off a scheme
(`[A-Za-z][A-Za-z0-9+.-]*` before the first `:`), split off the netloc after
`//` (up to the next `/`, `?` or `#`), and raise `ValueError` on a mismatched
IPv6 bracket in the netloc.  (`urlparse`'s further checks that can raise —
invalid bracketed hosts and the non-ASCII NFKC netloc check — are additional
`ValueError` paths not modelled; the query/params/fragment split does not
affect scheme or netloc.) -/

/-- `scheme_chars` from `urllib.parse`. -/
def schemeChars : String :=
  "abcdefghijklmnopqrstuvwxyzABCDEFGHIJKLMNOPQRSTUVWXYZ0123456789+-."

/-- Result of `urlsplit` (the components relevant here). -/
structure SplitResult where
  scheme : String
  netloc : String
  rest : String
deriving Repr, DecidableEq

/-- `url.split(sep, 1)`: the part before the first occurrence of `sep`, and
the part after it (the whole string and `""` when `sep` is absent). -/
def splitFirst (cs : List Char) (sep : Char) : List Char × List Char :=
  let pre := cs.takeWhile (fun c => c != sep)
  if pre.length = cs.length then (cs, []) else (pre, cs.drop (pre.length + 1))

/-- `_splitnetloc`: the netloc runs from after `//` to the next `/`, `?` or
`#`; the remainder (delimiter included) is the rest of the URL. -/
def splitNetloc (cs : List Char) : List Char × List Char :=
  let netloc := cs.takeWhile (fun c => c != '/' && c != '?' && c != '#')
  (netloc, cs.drop netloc.length)

/-- Model of `urllib.parse.urlsplit` (scheme and netloc).  `Except` models
the `ValueError` raised on a mismatched IPv6 bracket. -/
def urlsplit (url : String) : Except String SplitResult :=
  -- url = url.lstrip(C0-control-or-space); remove "\t", "\r", "\n"
  let cs0 := (url.toList.dropWhile (fun c => c.toNat ≤ 0x20)).filter
    (fun c => c != '\t' && c != '\r' && c != '\n')
  -- scheme: chars before the first ':', if the first is a letter and all are
  -- in scheme_chars; lowercased
  let stripped :=
    match splitFirst cs0 ':' with
    | (before, after) =>
      if before.length < cs0.length ∧ before.length > 0 ∧
          (cs0.headD ' ').isAlpha ∧ before.all (fun c => schemeChars.toList.contains c) then
        (String.mk (before.map Char.toLower), after)
      else
        ("", cs0)
  let scheme := stripped.1
  let cs1 := stripped.2
  if cs1.take 2 = ['/', '/'] then
    let (netloc, rest) := splitNetloc (cs1.drop 2)
    if (netloc.contains '[' && !netloc.contains ']') ||
        (netloc.contains ']' && !netloc.contains '[') then
      Except.error "Invalid IPv6 URL"
    else
      Except.ok { scheme := scheme, netloc := String.mk netloc, rest := String.mk rest }
  else
    Except.ok { scheme := scheme, netloc := "", rest := String.mk cs1 }

/-- `is_valid_url` from `app.py`: the `try` body checks
`parsed.scheme in ("http", "https")` and `parsed.netloc`; any exception from
`urlparse` is caught and yields `False`. -/
def is_valid_url (url : String) : Bool :=
  match urlsplit url with
  | Except.error _ => false
  | Except.ok parsed =>
    if parsed.scheme ≠ "http" ∧ parsed.scheme ≠ "https" then false
    else if parsed.netloc = "" then false
    else true

/-! ## app.py: data model and store

The `url_map` table is a list of rows in insertion order; `datetime` values
are integers.  Nullable columns (`short_code`, `created_at`, `hits`,
`last_accessed`, `expires_at`) are `Option`s: `short_code` has no
`nullable=False` and is only assigned after the insert, `hits` defaults to 0
at insert, `created_at` is filled by the column default. -/

/-- A row of the `url_map` table (`class UrlMap`). -/
structure UrlMap where
  id : Int
  long_url : String
  short_code : Option String
  created_at : Option Int
  hits : Option Int
  last_accessed : Option Int
  expires_at : Option Int
deriving Repr, DecidableEq

/-- `UrlMap.is_expired`: `self.expires_at is not None and now > self.expires_at`. -/
def UrlMap.is_expired (r : UrlMap) (now : Int) : Bool :=
  match r.expires_at with
  | none => false
  | some t => decide (t < now)

/-- `UrlMap.query.filter_by(short_code=code).first()`: first row whose
`short_code` column equals `code` (a NULL column never equals a string). -/
def findByCode (s : List UrlMap) (code : String) : Option UrlMap :=
  s.find? (fun r => r.short_code == some code)

/-- `UrlMap.query.filter_by(long_url=u).first()`. -/
def findByLongUrl (s : List UrlMap) (u : String) : Option UrlMap :=
  s.find? (fun r => r.long_url == u)

/-- ORM-style mutation of the single object returned by `.first()`: update
the first row satisfying `p`, leave everything else unchanged. -/
def updateFirst (p : UrlMap → Bool) (f : UrlMap → UrlMap) : List UrlMap → List UrlMap
  | [] => []
  | r :: rs => if p r then f r :: rs else r :: updateFirst p f rs

/-- Auto-increment primary key assignment on insert (SQLite: max rowid + 1,
starting from 1). -/
def nextId (s : List UrlMap) : Int :=
  (s.foldl (fun m r => max m r.id) 0) + 1

/-! ## app.py: route handlers -/

/-- `GET /<code>` (`redirect_code`): look up by `short_code`; 404 (`none`)
when absent or expired; otherwise `hits = (hits or 0) + 1`,
`last_accessed = now`, commit, and redirect to `long_url`. -/
def redirect_code (s : List UrlMap) (now : Int) (code : String) :
    Option String × List UrlMap :=
  match findByCode s code with
  | none => (none, s)
  | some item =>
    if item.is_expired now then (none, s)
    else
      (some item.long_url,
        updateFirst (fun r => r.short_code == some code)
          (fun r => { r with hits := some (r.hits.getD 0 + 1), last_accessed := some now })
          s)

/-- `GET /stats/<code>`: 404 (`none`) when absent, else render the row.  The
handler performs no session write, so the store is returned unchanged. -/
def stats (s : List UrlMap) (code : String) : Option UrlMap × List UrlMap :=
  match findByCode s code with
  | none => (none, s)
  | some item => (some item, s)

/-- The JSON object rendered by `GET /api/expand/<code>`. -/
structure ExpandView where
  code : Option String
  long_url : String
  hits : Option Int
  created_at : Option Int
  last_accessed : Option Int
  expires_at : Option Int
  expired : Bool
deriving Repr, DecidableEq

/-- `GET /api/expand/<code>` (`api_expand`): 404 JSON (`none`) when absent,
else the metadata view with the computed `expired` flag.  No session write,
so the store is returned unchanged. -/
def api_expand (s : List UrlMap) (now : Int) (code : String) :
    Option ExpandView × List UrlMap :=
  match findByCode s code with
  | none => (none, s)
  | some item =>
    (some { code := item.short_code, long_url := item.long_url, hits := item.hits,
            created_at := item.created_at, last_accessed := item.last_accessed,
            expires_at := item.expires_at, expired := item.is_expired now }, s)

/-! ## app.py: the `POST /shorten` handler -/

/-- ASCII whitespace stripped by Python's `str.strip()` / `int()`. -/
def isPySpace (c : Char) : Bool :=
  c == ' ' || c == '\t' || c == '\n' || c == '\x0d' || c == '\x0b' || c == '\x0c'

/-- Python `str.strip()` (ASCII whitespace). -/
def pyStrip (s : String) : String :=
  String.mk (((s.toList.dropWhile isPySpace).reverse.dropWhile isPySpace).reverse)

/-- Digit tail of Python's `int()` literal grammar: decimal digits with single
underscores allowed only between digits. -/
def pyIntGo : List Char → Nat → Option Nat
  | [], acc => some acc
  | '_' :: c :: rest, acc =>
    if c.isDigit then pyIntGo rest (acc * 10 + (c.toNat - 48)) else none
  | ['_'], _ => none
  | c :: rest, acc =>
    if c.isDigit then pyIntGo rest (acc * 10 + (c.toNat - 48)) else none

/-- An unsigned Python decimal integer literal (first char must be a digit). -/
def pyIntCore : List Char → Option Nat
  | [] => none
  | c :: rest => if c.isDigit then pyIntGo rest (c.toNat - 48) else none

/-- Python `int(s)` for decimal strings: strip whitespace, optional sign,
digits with single underscores between digits; `none` models the
`ValueError` raised on anything else.  (Non-ASCII decimal digits and exotic
Unicode whitespace, which Python would also accept, are outside the model.) -/
def pyInt (s : String) : Option Int :=
  let cs := ((s.toList.dropWhile isPySpace).reverse.dropWhile isPySpace).reverse
  match cs with
  | '+' :: rest => (pyIntCore rest).map (fun n => (n : Int))
  | '-' :: rest => (pyIntCore rest).map (fun n => -(n : Int))
  | _ => (pyIntCore cs).map (fun n => (n : Int))

/-- `re.fullmatch(r"[A-Za-z0-9_-]{3,32}", c)`: 3–32 characters, each an ASCII
letter, digit, underscore or hyphen. -/
def validCustomCode (c : String) : Bool :=
  decide (3 ≤ c.length) && decide (c.length ≤ 32) &&
    c.toList.all (fun ch =>
      (decide ('A' ≤ ch) && decide (ch ≤ 'Z')) ||
      (decide ('a' ≤ ch) && decide (ch ≤ 'z')) ||
      (decide ('0' ≤ ch) && decide (ch ≤ '9')) ||
      ch == '_' || ch == '-')

/-- Lines 74–76 of `app.py`:
`if long_url and not urlparse(long_url).scheme: long_url = "https://" + long_url`.
This `urlparse` call is not inside a `try`, so a `ValueError` from it
propagates out of the handler (`none`). -/
def normalize_long_url (l : String) : Option String :=
  if l = "" then some l
  else
    match urlsplit l with
    | Except.error _ => none
    | Except.ok parsed =>
      if parsed.scheme = "" then some ("https://" ++ l) else some l

/-- The validation failures flashed by the `shorten` handler (§7 taxonomy). -/
inductive ShortenErr where
  | invalid_url
  | invalid_expiry
  | invalid_custom_code
  | code_taken
deriving Repr, DecidableEq

/-- The data rendered by the success view: the assigned code, the stored
(normalized) `long_url` and the `expires_at` shown to the user. -/
structure ShortenOk where
  code : String
  long_url : String
  expires_at : Option Int
deriving Repr, DecidableEq

/-- Outcome of a `POST /shorten` request: success view, flashed validation
error, or an uncaught exception (500). -/
inductive ShortenResult where
  | ok (r : ShortenOk)
  | err (e : ShortenErr)
  | exn
deriving Repr, DecidableEq

/-- Lines 82–91 of `app.py`: an empty (stripped) `expires_in` means no
expiry; otherwise `int(...)` must succeed and be positive (the `except
ValueError` flashes `invalid_expiry`), and
`expires_at = now + timedelta(days=days)`. -/
def parseExpiry (now : Int) (expires_in_days : String) :
    Except ShortenErr (Option Int) :=
  if expires_in_days = "" then Except.ok none
  else
    match pyInt expires_in_days with
    | none => Except.error ShortenErr.invalid_expiry
    | some days =>
      if days ≤ 0 then Except.error ShortenErr.invalid_expiry
      else Except.ok (some (now + days * 86400))

/-- Lines 114–129 of `app.py`: insert a row to obtain its auto-increment id
(first commit), then assign `short_code = custom_code or encode_base62(row.id)`
and commit again.  The second commit violates the unique index on
`short_code` if the code already exists, raising an uncaught
`IntegrityError` (`exn`) and leaving the code-less row from the first
commit in the table. -/
def insertNew (s : List UrlMap) (now : Int) (long_url : String)
    (custom_code : Option String) (expires_at : Option Int) :
    ShortenResult × List UrlMap :=
  let row : UrlMap := { id := nextId s, long_url := long_url, short_code := none,
                        created_at := some now, hits := some 0, last_accessed := none,
                        expires_at := expires_at }
  let code := custom_code.getD (encode_base62 row.id)
  if (findByCode s code).isSome then
    (ShortenResult.exn, s ++ [row])
  else
    (ShortenResult.ok { code := code, long_url := long_url, expires_at := expires_at },
      s ++ [{ row with short_code := some code }])

/-- `POST /shorten` (`shorten`): form fields are stripped
(`custom_code` becomes `None` when empty); the URL is normalized by
prepending `https://` when no scheme is detected, then validated; the expiry
must parse as a positive integer of days (`expires_at = now + days`); a
custom code must match the regex and be unused; an existing row with the
same `long_url` (and no custom code requested) is reused, refreshing its
expiry if a new one was supplied; otherwise a new row is inserted. -/
def shorten (s : List UrlMap) (now : Int)
    (long_url_form custom_code_form expires_in_form : String) :
    ShortenResult × List UrlMap :=
  let long_url0 := pyStrip long_url_form
  let custom_code := if pyStrip custom_code_form = "" then none
    else some (pyStrip custom_code_form)
  let expires_in_days := pyStrip expires_in_form
  match normalize_long_url long_url0 with
  | none => (ShortenResult.exn, s)
  | some long_url =>
    if !(is_valid_url long_url) then (ShortenResult.err ShortenErr.invalid_url, s)
    else
      match parseExpiry now expires_in_days with
      | Except.error e => (ShortenResult.err e, s)
      | Except.ok expires_at =>
        match custom_code with
        | some c =>
          if !(validCustomCode c) then
            (ShortenResult.err ShortenErr.invalid_custom_code, s)
          else if (findByCode s c).isSome then
            (ShortenResult.err ShortenErr.code_taken, s)
          else
            insertNew s now long_url custom_code expires_at
        | none =>
          match findByLongUrl s long_url with
          | some existing =>
            -- dedup reuse: update expiry if provided, return the existing code
            let s' := if expires_at.isSome then
                updateFirst (fun r => r.long_url == long_url)
                  (fun r => { r with expires_at := expires_at }) s
              else s
            match existing.short_code with
            | none => (ShortenResult.exn, s')  -- host_url + None raises TypeError
            | some c =>
              (ShortenResult.ok
                { code := c, long_url := long_url,
                  expires_at :=
                    if expires_at.isSome then expires_at else existing.expires_at },
                s')
          | none => insertNew s now long_url custom_code expires_at

/-- A row with its `expires_at` forgotten — used to state that an operation
changes nothing but the expiry of rows. -/
def eraseExpiry (r : UrlMap) : UrlMap := { r with expires_at := none }

/-! ## Concrete checks of the model -/

example : pyInt "-1" = some (-1) := rfl
example : pyInt "1_0" = some 10 := rfl
example : pyInt "_1" = none := rfl
example : pyInt "1__0" = none := rfl
example : pyInt " 5 " = some 5 := rfl
example : pyInt "+3" = some 3 := rfl
example : pyInt "1_" = none := rfl
example : pyInt "abc" = none := rfl
example : pyInt "- 1" = none := rfl

example : shorten [] 0 "https://example.com" "" "" =
    (ShortenResult.ok ⟨"1", "https://example.com", none⟩,
      [⟨1, "https://example.com", some "1", some 0, some 0, none, none⟩]) := by decide

example : shorten [⟨1, "https://example.com", some "1", some 0, some 0, none, none⟩]
    5 "https://example.com" "" "" =
    (ShortenResult.ok ⟨"1", "https://example.com", none⟩,
      [⟨1, "https://example.com", some "1", some 0, some 0, none, none⟩]) := by decide

example : shorten [] 0 "https://example.com" "" "-1" =
    (ShortenResult.err ShortenErr.invalid_expiry, []) := by decide

example : shorten [] 0 "example.com/path" "" "" =
    (ShortenResult.ok ⟨"1", "https://example.com/path", none⟩,
      [⟨1, "https://example.com/path", some "1", some 0, some 0, none, none⟩]) := by decide

example : shorten [] 7 "https://example.com" "" "5" =
    (ShortenResult.ok ⟨"1", "https://example.com", some (7 + 5 * 86400)⟩,
      [⟨1, "https://example.com", some "1", some 7, some 0, none,
        some (7 + 5 * 86400)⟩]) := by decide

example : shorten [⟨1, "https://a.com", some "abc", some 0, some 0, none, none⟩]
    0 "https://example.com" "abc" "" =
    (ShortenResult.err ShortenErr.code_taken,
      [⟨1, "https://a.com", some "abc", some 0, some 0, none, none⟩]) := by decide

example : shorten [] 0 "https://example.com" "x!" "" =
    (ShortenResult.err ShortenErr.invalid_custom_code, []) := by decide

example : redirect_code [⟨1, "https://a.com", some "1", some 0, some 0, none, none⟩] 9 "1" =
    (some "https://a.com",
      [⟨1, "https://a.com", some "1", some 0, some 1, some 9, none⟩]) := by decide

example : redirect_code [⟨1, "https://a.com", some "1", some 0, some 0, none, some 5⟩] 9 "1" =
    (none, [⟨1, "https://a.com", some "1", some 0, some 0, none, some 5⟩]) := by decide

example : urlsplit "https://example.com/path" =
    Except.ok ⟨"https", "example.com", "/path"⟩ := rfl
example : urlsplit "example.com" = Except.ok ⟨"", "", "example.com"⟩ := rfl
example : urlsplit "http://@" = Except.ok ⟨"http", "@", ""⟩ := rfl
example : urlsplit "HTTP://x" = Except.ok ⟨"http", "x", ""⟩ := rfl
example : urlsplit "1http://x" = Except.ok ⟨"", "", "1http://x"⟩ := rfl
example : urlsplit "http:x" = Except.ok ⟨"http", "", "x"⟩ := rfl
example : urlsplit "  http://x" = Except.ok ⟨"http", "x", ""⟩ := rfl
example : urlsplit "http://[::1" = Except.error "Invalid IPv6 URL" := rfl
example : urlsplit "localhost:5000/x" = Except.ok ⟨"localhost", "", "5000/x"⟩ := rfl
example : urlsplit "https://e#f?g" = Except.ok ⟨"https", "e", "#f?g"⟩ := rfl
example : is_valid_url "https://example.com/path" = true := by decide
example : is_valid_url "http://" = false := by decide
example : is_valid_url "example.com" = false := by decide
example : is_valid_url "http://[::1" = false := by decide

example : encode_base62 0 = "0" := by decide
example : encode_base62 1 = "1" := by decide
example : encode_base62 61 = "Z" := by decide
example : encode_base62 62 = "10" := by decide
example : encode_base62 125 = "21" := by decide
example : decodeBase62 "21" = 125 := by decide
example : encode_base62 (-5) = "" := by decide

/-! ### Lemmas about the encoder -/

/-- When the loop counter is not positive the loop body never runs. -/
theorem encodeLoop_nonpos (fuel : Nat) (n : Int) (h : ¬ 0 < n) (out : List Char) :
    encodeLoop fuel n out = out := by
  cases fuel <;> simp [encodeLoop, h]

/-- With enough fuel the encoding loop produces exactly the base-62 digits
of `m` (most-significant first) prepended to the accumulator. -/
theorem encodeLoop_eq_digits (m : Nat) :
    ∀ fuel, m ≤ fuel → ∀ out,
      encodeLoop fuel (m : Int) out = ((Nat.digits 62 m).map alphaChar).reverse ++ out := by
  induction m using Nat.strong_induction_on with
  | _ m ih =>
    intro fuel hfuel out
    rcases Nat.eq_zero_or_pos m with h0 | hp
    · subst h0
      rw [encodeLoop_nonpos _ _ (by omega)]
      simp
    · obtain ⟨f, rfl⟩ : ∃ f, fuel = f + 1 := ⟨fuel - 1, by omega⟩
      have hdiv : m / 62 < m := Nat.div_lt_self hp (by norm_num)
      have hcast : ((m : Int) / 62) = ((m / 62 : Nat) : Int) := by omega
      have hmod : (((m : Int) % 62)).toNat = m % 62 := by omega
      rw [encodeLoop, if_pos (by omega : (0 : Int) < m), hcast, hmod,
        ih (m / 62) hdiv f (by omega),
        Nat.digits_def' (by norm_num : (1 : ℕ) < 62) hp]
      simp [alphaChar]

/-- Character form of `encode_base62` for positive input: it is the base-62
digit string of `m`, most-significant digit first. -/
theorem encode_base62_toList (m : Nat) (hm : 0 < m) :
    (encode_base62 (m : Int)).toList = ((Nat.digits 62 m).map alphaChar).reverse := by
  rw [encode_base62, if_neg (by omega), Int.toNat_natCast, encodeLoop_eq_digits m m le_rfl]
  simp [String.toList, String.mk]

/-- Each alphabet character decodes back to its digit value. -/
theorem indexOf_alphaChar : ∀ d < 62, ALPHABET.toList.indexOf (alphaChar d) = d := by
  decide

/-- Only digit 0 is rendered as the character `0`. -/
theorem alphaChar_eq_zero : ∀ d < 62, alphaChar d = '0' → d = 0 := by
  decide

/-- Horner evaluation of the most-significant-first digit string. -/
theorem foldl_decode (L : List Nat) (h : ∀ d ∈ L, d < 62) :
    ∀ acc : Nat,
      ((L.map alphaChar).reverse).foldl (fun a c => a * 62 + ALPHABET.toList.indexOf c) acc
        = acc * 62 ^ L.length + Nat.ofDigits 62 L := by
  induction L with
  | nil => intro acc; simp
  | cons d L ih =>
    intro acc
    have hd : d < 62 := h d (List.mem_cons_self d L)
    have hL : ∀ x ∈ L, x < 62 := fun x hx => h x (List.mem_cons_of_mem d hx)
    simp only [List.map_cons, List.reverse_cons, List.foldl_append, List.foldl_cons,
      List.foldl_nil, ih hL acc, Nat.ofDigits_cons, List.length_cons,
      indexOf_alphaChar d hd]
    ring

/-! ## Claims about the encoder -/

/-- C1: for every non-negative integer `n`, interpreting `encode_base62 n` as
a positional base-62 numeral over `ALPHABET` (digit value = index in the
alphabet, most-significant digit first) yields `n` back. -/
theorem encode_base62_roundtrip (n : Nat) :
    decodeBase62 (encode_base62 (n : Int)) = n := by
  rcases Nat.eq_zero_or_pos n with h0 | hp
  · subst h0; decide
  · rw [decodeBase62, encode_base62_toList n hp,
      foldl_decode _ (fun d hd => Nat.digits_lt_base (by norm_num) hd) 0]
    simp [Nat.ofDigits_digits]

/-- C2: `encode_base62 0 = "0"`, and for every integer `n > 0` the output is
the standard positional base-62 representation of `n` (the base-62 digits of
`n`, most-significant first, each rendered through `ALPHABET`), and its first
character is never `'0'`. -/
theorem encode_base62_standard :
    encode_base62 0 = "0" ∧
    ∀ n : Int, 0 < n →
      (encode_base62 n).toList = ((Nat.digits 62 n.toNat).map alphaChar).reverse ∧
      (encode_base62 n).toList.head? ≠ some '0' := by
  refine ⟨by decide, fun n hn => ?_⟩
  obtain ⟨m, rfl⟩ : ∃ m : Nat, n = (m : Int) := ⟨n.toNat, (Int.toNat_of_nonneg hn.le).symm⟩
  have hm : 0 < m := by omega
  have hlist := encode_base62_toList m hm
  rw [Int.toNat_natCast]
  refine ⟨hlist, ?_⟩
  have hne : Nat.digits 62 m ≠ [] := Nat.digits_ne_nil_iff_ne_zero.mpr (by omega)
  rw [hlist, ← List.map_reverse, List.head?_map, List.head?_reverse]
  intro hcontra
  obtain ⟨d, hd1, hd2⟩ : ∃ d, (Nat.digits 62 m).getLast? = some d ∧ alphaChar d = '0' := by
    rcases h : (Nat.digits 62 m).getLast? with _ | d
    · rw [h] at hcontra; simp at hcontra
    · rw [h] at hcontra; simp at hcontra; exact ⟨d, rfl, hcontra⟩
  have hdlast : d = (Nat.digits 62 m).getLast hne := by
    rw [List.getLast?_eq_getLast _ hne] at hd1
    exact (Option.some_inj.mp hd1).symm
  have hmem : d ∈ Nat.digits 62 m := hdlast ▸ List.getLast_mem hne
  have hlt : d < 62 := Nat.digits_lt_base (by norm_num) hmem
  have hzero : d = 0 := alphaChar_eq_zero d hlt hd2
  exact Nat.getLast_digit_ne_zero 62 (m := m) (by omega) (by rw [← hdlast, hzero])

/-- Witness for C2 at `n = 62`: the representation is `"10"` and does not
start with `'0'`. -/
theorem encode_base62_standard_witness :
    (0 : Int) < 62 ∧
      (encode_base62 62).toList = ((Nat.digits 62 (62 : Int).toNat).map alphaChar).reverse ∧
      (encode_base62 62).toList.head? ≠ some '0' :=
  ⟨by norm_num, encode_base62_standard.2 62 (by norm_num)⟩

/-- C10: for every negative integer `n`, `encode_base62 n` silently returns
the empty string (the `while` loop body never runs), rather than raising or
producing a digit. -/
theorem encode_base62_negative (n : Int) (h : n < 0) : encode_base62 n = "" := by
  rw [encode_base62, if_neg (by omega), encodeLoop_nonpos _ _ (by omega)]

/-- Witness for C10 at `n = -7`. -/
theorem encode_base62_negative_witness :
    (-7 : Int) < 0 ∧ encode_base62 (-7) = "" :=
  ⟨by norm_num, encode_base62_negative (-7) (by norm_num)⟩

/-! ## Claim about the URL validator -/

/-- C3: for every string `s`, `is_valid_url s` is `true` iff `s` parses (the
parse does not raise) with scheme exactly `http` or `https` and a non-empty
authority (host) component — the spec's §4.2 identifies the host component
with the authority (`netloc`) that the code checks.  The validator is a total
boolean function: malformed input (a parse error) yields `false`, never an
error. -/
theorem is_valid_url_spec (s : String) :
    (is_valid_url s = true ↔
      ∃ p, urlsplit s = Except.ok p ∧
        (p.scheme = "http" ∨ p.scheme = "https") ∧ p.netloc ≠ "") ∧
    (is_valid_url s = true ∨ is_valid_url s = false) := by
  constructor
  · rcases h : urlsplit s with e | p
    · simp [is_valid_url, h]
    · simp only [is_valid_url, h]
      constructor
      · intro hv
        refine ⟨p, rfl, ?_⟩
        by_cases h1 : p.scheme ≠ "http" ∧ p.scheme ≠ "https"
        · rw [if_pos h1] at hv; exact absurd hv (by simp)
        · rw [if_neg h1] at hv
          by_cases h2 : p.netloc = ""
          · rw [if_pos h2] at hv; exact absurd hv (by simp)
          · exact ⟨by tauto, h2⟩
      · rintro ⟨q, hq, hscheme, hnetloc⟩
        obtain rfl : p = q := by injection hq with hpq
        rw [if_neg (by tauto), if_neg hnetloc]
  · rcases h : is_valid_url s with _ | _ <;> simp

/-! ## Store lemmas -/

/-- `updateFirst` never changes the number of rows. -/
theorem updateFirst_length (p : UrlMap → Bool) (f : UrlMap → UrlMap) :
    ∀ s, (updateFirst p f s).length = s.length := by
  intro s
  induction s with
  | nil => rfl
  | cons r rs ih => by_cases h : p r <;> simp [updateFirst, h, ih]

/-- A successful `find?` splits the list at the first match. -/
theorem find?_decomp {p : UrlMap → Bool} {s : List UrlMap} {r : UrlMap}
    (h : s.find? p = some r) :
    ∃ pre post, s = pre ++ r :: post ∧ (∀ x ∈ pre, p x = false) ∧ p r = true := by
  induction s with
  | nil => simp at h
  | cons a rs ih =>
    rcases hpa : p a with _ | _
    · rw [List.find?_cons_of_neg _ (by simp [hpa])] at h
      obtain ⟨pre, post, hs, hpre, hpr⟩ := ih h
      refine ⟨a :: pre, post, by rw [hs]; rfl, ?_, hpr⟩
      intro x hx
      rcases List.mem_cons.mp hx with rfl | hx'
      · exact hpa
      · exact hpre x hx'
    · rw [List.find?_cons_of_pos _ hpa] at h
      obtain rfl : a = r := by injection h
      exact ⟨[], rs, rfl, by simp, hpa⟩

/-- `updateFirst` on a list split at its first match rewrites just that row. -/
theorem updateFirst_decomp (p : UrlMap → Bool) (f : UrlMap → UrlMap)
    (pre post : List UrlMap) (r : UrlMap)
    (hpre : ∀ x ∈ pre, p x = false) (hr : p r = true) :
    updateFirst p f (pre ++ r :: post) = pre ++ f r :: post := by
  induction pre with
  | nil => simp [updateFirst, hr]
  | cons a pre ih =>
    have ha : p a = false := hpre a (List.mem_cons_self a pre)
    simp only [List.cons_append, updateFirst, ha, Bool.false_eq_true, if_false,
      List.cons.injEq, true_and]
    exact ih (fun x hx => hpre x (List.mem_cons_of_mem a hx))

/-! ## Claims about redirect, stats and expand -/

/-- C4: `resolve(code)` is `NotFound` iff no row has this `short_code` or the
(first) matching row is expired; otherwise it returns that row's `long_url`
and the only change to the store is that row's `hits` counter going up by
exactly one (a NULL counter counts as 0, per `(item.hits or 0) + 1`) and its
`last_accessed` being set to now. -/
theorem redirect_code_spec (s : List UrlMap) (now : Int) (code : String) :
    ((redirect_code s now code).1 = none ↔
      findByCode s code = none ∨
        ∃ r, findByCode s code = some r ∧ r.is_expired now = true) ∧
    (∀ r, findByCode s code = some r → r.is_expired now = false →
      (redirect_code s now code).1 = some r.long_url ∧
      ∃ pre post, s = pre ++ r :: post ∧
        (∀ x ∈ pre, (x.short_code == some code) = false) ∧
        (redirect_code s now code).2 =
          pre ++ { r with hits := some (r.hits.getD 0 + 1),
                          last_accessed := some now } :: post) := by
  constructor
  · rcases h : findByCode s code with _ | r
    · simp [redirect_code, h]
    · rcases hexp : r.is_expired now with _ | _
      · simp [redirect_code, h, hexp]
      · simp [redirect_code, h, hexp]
  · intro r h hexp
    have hfind : s.find? (fun x => x.short_code == some code) = some r := h
    obtain ⟨pre, post, hs, hpre, hpr⟩ := find?_decomp hfind
    refine ⟨by simp [redirect_code, h, hexp], pre, post, hs, hpre, ?_⟩
    simp only [redirect_code, h, hexp, Bool.false_eq_true, if_false]
    rw [hs, updateFirst_decomp _ _ pre post r hpre hpr]

/-- Witness for C4: a one-row store with a live code; the redirect returns
the long URL and bumps `hits` from 0 to 1, stamping `last_accessed`. -/
theorem redirect_code_spec_witness :
    (redirect_code [⟨1, "https://a.com", some "1", some 0, some 0, none, none⟩] 9 "1").1 =
      some (⟨1, "https://a.com", some "1", some 0, some 0, none, none⟩ : UrlMap).long_url ∧
    ∃ pre post,
      [(⟨1, "https://a.com", some "1", some 0, some 0, none, none⟩ : UrlMap)] =
        pre ++ (⟨1, "https://a.com", some "1", some 0, some 0, none, none⟩ : UrlMap) :: post ∧
      (∀ x ∈ pre, (x.short_code == some "1") = false) ∧
      (redirect_code [⟨1, "https://a.com", some "1", some 0, some 0, none, none⟩] 9 "1").2 =
        pre ++ { (⟨1, "https://a.com", some "1", some 0, some 0, none, none⟩ : UrlMap) with
                   hits := some ((⟨1, "https://a.com", some "1", some 0, some 0, none,
                     none⟩ : UrlMap).hits.getD 0 + 1),
                   last_accessed := some 9 } :: post :=
  (redirect_code_spec [⟨1, "https://a.com", some "1", some 0, some 0, none, none⟩] 9 "1").2
    ⟨1, "https://a.com", some "1", some 0, some 0, none, none⟩ rfl rfl

/-- C5 (soft expiry): a stored link whose `expires_at` lies strictly in the
past is `NotFound` for the redirect path (and the store is untouched), yet
the expand/stats path still returns its metadata with `expired = true`. -/
theorem soft_expiry (s : List UrlMap) (now : Int) (code : String) (r : UrlMap) (t : Int)
    (h : findByCode s code = some r) (ht : r.expires_at = some t) (hlt : t < now) :
    redirect_code s now code = (none, s) ∧
    ∃ v, (api_expand s now code).1 = some v ∧ v.expired = true := by
  have hexp : r.is_expired now = true := by
    simp [UrlMap.is_expired, ht, hlt]
  refine ⟨by simp [redirect_code, h, hexp], ?_⟩
  exact ⟨{ code := r.short_code, long_url := r.long_url, hits := r.hits,
           created_at := r.created_at, last_accessed := r.last_accessed,
           expires_at := r.expires_at, expired := r.is_expired now },
    by simp [api_expand, h], hexp⟩

/-- Witness for C5: a row expired at `t = 5`, resolved at `now = 9`. -/
theorem soft_expiry_witness :
    redirect_code [⟨1, "https://a.com", some "1", some 0, some 0, none, some 5⟩] 9 "1" =
      (none, [⟨1, "https://a.com", some "1", some 0, some 0, none, some 5⟩]) ∧
    ∃ v, (api_expand [⟨1, "https://a.com", some "1", some 0, some 0, none, some 5⟩] 9 "1").1 =
      some v ∧ v.expired = true :=
  soft_expiry [⟨1, "https://a.com", some "1", some 0, some 0, none, some 5⟩] 9 "1"
    ⟨1, "https://a.com", some "1", some 0, some 0, none, some 5⟩ 5 rfl rfl (by norm_num)

/-- C9: stats and expand are pure reads — the store comes back unchanged in
every case, the lookup fails iff no row carries the code, and on success the
view exposes exactly the row's fields plus the computed `expired` flag. -/
theorem stats_expand_pure (s : List UrlMap) (now : Int) (code : String) :
    ((api_expand s now code).2 = s ∧ (stats s code).2 = s) ∧
    ((api_expand s now code).1 = none ↔ findByCode s code = none) ∧
    ((stats s code).1 = none ↔ findByCode s code = none) ∧
    (∀ r, findByCode s code = some r →
      (stats s code).1 = some r ∧
      (api_expand s now code).1 =
        some { code := r.short_code, long_url := r.long_url, hits := r.hits,
               created_at := r.created_at, last_accessed := r.last_accessed,
               expires_at := r.expires_at, expired := r.is_expired now }) := by
  rcases h : findByCode s code with _ | r
  · exact ⟨⟨by simp [api_expand, h], by simp [stats, h]⟩,
      by simp [api_expand, h], by simp [stats, h],
      fun r hr => by simp at hr⟩
  · refine ⟨⟨by simp [api_expand, h], by simp [stats, h]⟩,
      by simp [api_expand, h], by simp [stats, h], fun r' hr' => ?_⟩
    obtain rfl : r = r' := by injection hr'
    exact ⟨by simp [stats, h], by simp [api_expand, h]⟩

/-- Witness for C9's success case on a one-row store. -/
theorem stats_expand_pure_witness :
    (stats [⟨1, "https://a.com", some "1", some 0, some 2, some 4, some 5⟩] "1").1 =
      some ⟨1, "https://a.com", some "1", some 0, some 2, some 4, some 5⟩ ∧
    (api_expand [⟨1, "https://a.com", some "1", some 0, some 2, some 4, some 5⟩] 9 "1").1 =
      some { code := (⟨1, "https://a.com", some "1", some 0, some 2, some 4,
               some 5⟩ : UrlMap).short_code,
             long_url := "https://a.com", hits := some 2, created_at := some 0,
             last_accessed := some 4, expires_at := some 5,
             expired := (⟨1, "https://a.com", some "1", some 0, some 2, some 4,
               some 5⟩ : UrlMap).is_expired 9 } :=
  (stats_expand_pure [⟨1, "https://a.com", some "1", some 0, some 2, some 4, some 5⟩] 9
    "1").2.2.2 ⟨1, "https://a.com", some "1", some 0, some 2, some 4, some 5⟩ rfl

/-! ## Lemmas about the shorten pipeline -/

theorem pyStrip_empty : pyStrip "" = "" := rfl

/-- A regex-valid custom code is non-empty (it has at least 3 characters). -/
theorem validCustomCode_ne_empty {c : String} (h : validCustomCode c = true) : c ≠ "" := by
  intro h0
  rw [h0] at h
  exact absurd h (by decide)

/-- `parseExpiry` succeeds or fails independently of the current time, and
whether it produces an expiry does not depend on it either. -/
theorem parseExpiry_ok_any_now (now now' : Int) (e : String) (o : Option Int)
    (h : parseExpiry now e = Except.ok o) :
    ∃ o', parseExpiry now' e = Except.ok o' ∧ o'.isSome = o.isSome := by
  by_cases he : e = ""
  · rw [parseExpiry, if_pos he] at h
    obtain rfl : (none : Option Int) = o := by injection h
    exact ⟨none, by rw [parseExpiry, if_pos he], rfl⟩
  · rcases hpi : pyInt e with _ | d
    · simp only [parseExpiry, if_neg he, hpi] at h
      exact Except.noConfusion h
    · by_cases hd : d ≤ 0
      · simp only [parseExpiry, if_neg he, hpi, if_pos hd] at h
        exact Except.noConfusion h
      · simp only [parseExpiry, if_neg he, hpi, if_neg hd] at h
        obtain rfl : (some (now + d * 86400) : Option Int) = o := by injection h
        refine ⟨some (now' + d * 86400), ?_, rfl⟩
        simp only [parseExpiry, if_neg he, hpi, if_neg hd]

/-- Evaluation of `parseExpiry` on a positive number of days. -/
theorem parseExpiry_pos (now : Int) (e : String) (d : Int)
    (hpi : pyInt e = some d) (hd : 0 < d) :
    parseExpiry now e = Except.ok (some (now + d * 86400)) := by
  have he : e ≠ "" := by
    intro h0
    rw [h0] at hpi
    cases hpi
  simp only [parseExpiry, if_neg he, hpi, if_neg (by omega : ¬ d ≤ 0)]

/-- Evaluation of `parseExpiry` when the field is present but does not parse
as a positive integer. -/
theorem parseExpiry_bad (now : Int) (e : String) (hne : e ≠ "")
    (hbad : ∀ d, pyInt e = some d → d ≤ 0) :
    parseExpiry now e = Except.error ShortenErr.invalid_expiry := by
  rcases hpi : pyInt e with _ | d
  · simp only [parseExpiry, if_neg hne, hpi]
  · simp only [parseExpiry, if_neg hne, hpi, if_pos (hbad d hpi)]

/-! ### Forward evaluation lemmas for `shorten`

Each lemma pins down what `shorten` returns on one control-flow path, given
the outcome of every test along that path. -/

/-- Path: `urlparse` raises during normalization — the exception escapes. -/
theorem shorten_eval_exn_normalize {s : List UrlMap} {now : Int}
    {uraw craw eraw : String}
    (hn : normalize_long_url (pyStrip uraw) = none) :
    shorten s now uraw craw eraw = (ShortenResult.exn, s) := by
  simp only [shorten, hn]

/-- Path: URL invalid after normalization. -/
theorem shorten_eval_invalid_url {s : List UrlMap} {now : Int}
    {uraw craw eraw L : String}
    (hn : normalize_long_url (pyStrip uraw) = some L)
    (hv : is_valid_url L = false) :
    shorten s now uraw craw eraw = (ShortenResult.err ShortenErr.invalid_url, s) := by
  simp only [shorten, hn, hv, Bool.not_false, if_true]

/-- Path: expiry field rejected. -/
theorem shorten_eval_bad_expiry {s : List UrlMap} {now : Int}
    {uraw craw eraw L : String} {e : ShortenErr}
    (hn : normalize_long_url (pyStrip uraw) = some L)
    (hv : is_valid_url L = true)
    (he : parseExpiry now (pyStrip eraw) = Except.error e) :
    shorten s now uraw craw eraw = (ShortenResult.err e, s) := by
  simp only [shorten, hn, hv, Bool.not_true, Bool.false_eq_true, if_false, he]

/-- Path: custom code present but rejected by the regex. -/
theorem shorten_eval_invalid_custom {s : List UrlMap} {now : Int}
    {uraw craw eraw L : String} {expOpt : Option Int}
    (hn : normalize_long_url (pyStrip uraw) = some L)
    (hv : is_valid_url L = true)
    (he : parseExpiry now (pyStrip eraw) = Except.ok expOpt)
    (hc : pyStrip craw ≠ "")
    (hvc : validCustomCode (pyStrip craw) = false) :
    shorten s now uraw craw eraw =
      (ShortenResult.err ShortenErr.invalid_custom_code, s) := by
  simp only [shorten, hn, hv, Bool.not_true, Bool.false_eq_true, if_false, he,
    if_neg hc, hvc, Bool.not_false, if_true]

/-- Path: custom code present, regex-valid, and free — fresh insert with the
custom code. -/
theorem shorten_eval_custom_insert {s : List UrlMap} {now : Int}
    {uraw craw eraw L : String} {expOpt : Option Int}
    (hn : normalize_long_url (pyStrip uraw) = some L)
    (hv : is_valid_url L = true)
    (he : parseExpiry now (pyStrip eraw) = Except.ok expOpt)
    (hvc : validCustomCode (pyStrip craw) = true)
    (htk : (findByCode s (pyStrip craw)).isSome = false) :
    shorten s now uraw craw eraw =
      insertNew s now L (some (pyStrip craw)) expOpt := by
  have hc : pyStrip craw ≠ "" := validCustomCode_ne_empty hvc
  simp only [shorten, hn, hv, Bool.not_true, Bool.false_eq_true, if_false, he,
    if_neg hc, hvc, htk]

/-- Path: custom code present, regex-valid, but already taken. -/
theorem shorten_eval_code_taken {s : List UrlMap} {now : Int}
    {uraw craw eraw L : String} {expOpt : Option Int}
    (hn : normalize_long_url (pyStrip uraw) = some L)
    (hv : is_valid_url L = true)
    (he : parseExpiry now (pyStrip eraw) = Except.ok expOpt)
    (hvc : validCustomCode (pyStrip craw) = true)
    (htk : (findByCode s (pyStrip craw)).isSome = true) :
    shorten s now uraw craw eraw = (ShortenResult.err ShortenErr.code_taken, s) := by
  have hc : pyStrip craw ≠ "" := validCustomCode_ne_empty hvc
  simp only [shorten, hn, hv, Bool.not_true, Bool.false_eq_true, if_false, he,
    if_neg hc, hvc, htk, if_true]

/-- Path: no custom code, no row with this `long_url` — fresh insert. -/
theorem shorten_eval_insert {s : List UrlMap} {now : Int}
    {uraw craw eraw L : String} {expOpt : Option Int}
    (hn : normalize_long_url (pyStrip uraw) = some L)
    (hv : is_valid_url L = true)
    (he : parseExpiry now (pyStrip eraw) = Except.ok expOpt)
    (hc : pyStrip craw = "")
    (hex : findByLongUrl s L = none) :
    shorten s now uraw craw eraw = insertNew s now L none expOpt := by
  simp only [shorten, hn, hv, Bool.not_true, Bool.false_eq_true, if_false, he,
    hc, if_true, hex]

/-- Path: no custom code, an existing row with this `long_url` but no
assigned code yet — the `None`-typed concatenation raises. -/
theorem shorten_eval_dedup_nocode {s : List UrlMap} {now : Int}
    {uraw craw eraw L : String} {expOpt : Option Int} {ex : UrlMap}
    (hn : normalize_long_url (pyStrip uraw) = some L)
    (hv : is_valid_url L = true)
    (he : parseExpiry now (pyStrip eraw) = Except.ok expOpt)
    (hc : pyStrip craw = "")
    (hex : findByLongUrl s L = some ex)
    (hsc : ex.short_code = none) :
    shorten s now uraw craw eraw =
      (ShortenResult.exn,
       if expOpt.isSome then
         updateFirst (fun x => x.long_url == L)
           (fun x => { x with expires_at := expOpt }) s
       else s) := by
  simp only [shorten, hn, hv, Bool.not_true, Bool.false_eq_true, if_false, he,
    hc, if_true, hex, hsc]

/-- Path: no custom code, an existing row with this `long_url` and an
assigned code — dedup reuse. -/
theorem shorten_eval_dedup {s : List UrlMap} {now : Int}
    {uraw craw eraw L : String} {expOpt : Option Int} {ex : UrlMap} {c : String}
    (hn : normalize_long_url (pyStrip uraw) = some L)
    (hv : is_valid_url L = true)
    (he : parseExpiry now (pyStrip eraw) = Except.ok expOpt)
    (hc : pyStrip craw = "")
    (hex : findByLongUrl s L = some ex)
    (hsc : ex.short_code = some c) :
    shorten s now uraw craw eraw =
      (ShortenResult.ok
        { code := c, long_url := L,
          expires_at := if expOpt.isSome then expOpt else ex.expires_at },
       if expOpt.isSome then
         updateFirst (fun x => x.long_url == L)
           (fun x => { x with expires_at := expOpt }) s
       else s) := by
  simp only [shorten, hn, hv, Bool.not_true, Bool.false_eq_true, if_false, he,
    hc, if_true, hex, hsc]

/-- Inversion of a successful two-phase insert: the code is the custom one
or `encode_base62` of the fresh id, that code was free, and exactly one
fully populated row was appended. -/
theorem insertNew_ok_inv {s s' : List UrlMap} {now : Int} {L : String}
    {cc : Option String} {e : Option Int} {r : ShortenOk}
    (h : insertNew s now L cc e = (ShortenResult.ok r, s')) :
    r = { code := cc.getD (encode_base62 (nextId s)), long_url := L, expires_at := e } ∧
    findByCode s r.code = none ∧
    s' = s ++ [{ id := nextId s, long_url := L, short_code := some r.code,
                 created_at := some now, hits := some 0, last_accessed := none,
                 expires_at := e }] := by
  simp only [insertNew] at h
  by_cases htk : (findByCode s (cc.getD (encode_base62 (nextId s)))).isSome
  · rw [if_pos htk] at h
    exact absurd (congrArg Prod.fst h) (by simp)
  · rw [if_neg htk] at h
    obtain ⟨h1, h2⟩ := Prod.mk.injEq .. ▸ h
    obtain rfl :
        ({ code := cc.getD (encode_base62 (nextId s)), long_url := L,
           expires_at := e } : ShortenOk) = r := by
      injection h1
    exact ⟨rfl, by simpa using htk, h2.symm⟩

/-- `updateFirst` commutes with `find?` when the update preserves the
predicate. -/
theorem find?_updateFirst_same (p : UrlMap → Bool) (f : UrlMap → UrlMap)
    (hf : ∀ x, p (f x) = p x) :
    ∀ s, (updateFirst p f s).find? p = (s.find? p).map f := by
  intro s
  induction s with
  | nil => rfl
  | cons r rs ih =>
    by_cases h : p r
    · simp only [updateFirst, if_pos h]
      rw [List.find?_cons_of_pos _ (by rw [hf]; exact h), List.find?_cons_of_pos _ h]
      rfl
    · simp only [updateFirst, if_neg h]
      rw [List.find?_cons_of_neg _ (by simp [h]), List.find?_cons_of_neg _ (by simp [h]), ih]

/-- An update touching only `expires_at` is invisible after `eraseExpiry`. -/
theorem map_eraseExpiry_updateFirst (q : UrlMap → Bool) (e : Option Int) :
    ∀ s, (updateFirst q (fun x => { x with expires_at := e }) s).map eraseExpiry =
      s.map eraseExpiry := by
  intro s
  induction s with
  | nil => rfl
  | cons r rs ih =>
    by_cases h : q r
    · simp only [updateFirst, if_pos h, List.map_cons]
      rfl
    · simp only [updateFirst, if_neg h, List.map_cons, ih]

/-! ## Claims about `POST /shorten` -/

/-- C6 (dedup idempotence): if shortening a URL without a custom code
succeeded, shortening the same URL again without a custom code succeeds with
the same short code, the row count is unchanged (no duplicate row), the
second call changes at most `expires_at` fields, and changes nothing at all
when no new expiry was supplied. -/
theorem shorten_dedup_idempotent (s s₁ : List UrlMap) (now now' : Int)
    (uraw eraw : String) (r : ShortenOk)
    (h : shorten s now uraw "" eraw = (ShortenResult.ok r, s₁)) :
    ∃ r' s₂, shorten s₁ now' uraw "" eraw = (ShortenResult.ok r', s₂) ∧
      r'.code = r.code ∧
      s₂.length = s₁.length ∧
      s₂.map eraseExpiry = s₁.map eraseExpiry ∧
      (pyStrip eraw = "" → s₂ = s₁) := by
  rcases hn : normalize_long_url (pyStrip uraw) with _ | L
  · rw [shorten_eval_exn_normalize hn] at h
    exact absurd (congrArg Prod.fst h) (by simp)
  rcases hv : is_valid_url L with _ | _
  · rw [shorten_eval_invalid_url hn hv] at h
    exact absurd (congrArg Prod.fst h) (by simp)
  rcases he : parseExpiry now (pyStrip eraw) with e | expOpt
  · rw [shorten_eval_bad_expiry hn hv he] at h
    exact absurd (congrArg Prod.fst h) (by simp)
  obtain ⟨expOpt', he', hiso⟩ := parseExpiry_ok_any_now now now' (pyStrip eraw) expOpt he
  have hempty : pyStrip eraw = "" → expOpt' = none := by
    intro h0
    rw [h0] at he'
    rw [parseExpiry, if_pos rfl] at he'
    injection he' with h1
    exact h1.symm
  rcases hex : findByLongUrl s L with _ | ex
  · -- first call inserted a fresh row
    rw [shorten_eval_insert hn hv he pyStrip_empty hex] at h
    obtain ⟨hr, hfree, hs₁⟩ := insertNew_ok_inv h
    have hex₁ : findByLongUrl s₁ L =
        some { id := nextId s, long_url := L, short_code := some r.code,
               created_at := some now, hits := some 0, last_accessed := none,
               expires_at := expOpt } := by
      rw [hs₁, findByLongUrl, List.find?_append]
      have hnone : s.find? (fun x => x.long_url == L) = none := hex
      rw [hnone, Option.none_or, List.find?_cons_of_pos _ (by simp)]
    have hsc₁ : ({ id := nextId s, long_url := L, short_code := some r.code,
                   created_at := some now, hits := some 0, last_accessed := none,
                   expires_at := expOpt } : UrlMap).short_code = some r.code := rfl
    refine ⟨_, _, shorten_eval_dedup hn hv he' pyStrip_empty hex₁ hsc₁, rfl, ?_, ?_, ?_⟩
    · rcases hs : expOpt'.isSome with _ | _
      · simp [hs]
      · simp [hs, updateFirst_length]
    · rcases hs : expOpt'.isSome with _ | _
      · simp [hs]
      · simp [hs, map_eraseExpiry_updateFirst]
    · intro h0
      simp [hempty h0]
  · -- first call reused an existing row
    rcases hsc : ex.short_code with _ | c
    · rw [shorten_eval_dedup_nocode hn hv he pyStrip_empty hex hsc] at h
      exact absurd (congrArg Prod.fst h) (by simp)
    · rw [shorten_eval_dedup hn hv he pyStrip_empty hex hsc] at h
      obtain ⟨h1, h2⟩ := Prod.mk.injEq .. ▸ h
      obtain rfl :
          ({ code := c, long_url := L,
             expires_at := if expOpt.isSome then expOpt
               else ex.expires_at } : ShortenOk) = r := by
        injection h1
      have hq : ∀ x : UrlMap,
          ((({ x with expires_at := expOpt } : UrlMap)).long_url == L) =
            (x.long_url == L) := fun x => rfl
      rcases hsome : expOpt.isSome with _ | _
      · -- no expiry refresh: the store was untouched
        have hs₁ : s₁ = s := by rw [← h2, if_neg (by simp [hsome])]
        subst hs₁
        refine ⟨_, _, shorten_eval_dedup hn hv he' pyStrip_empty hex hsc, rfl, ?_, ?_, ?_⟩
        · rcases hs : expOpt'.isSome with _ | _
          · simp [hs]
          · simp [hs, updateFirst_length]
        · rcases hs : expOpt'.isSome with _ | _
          · simp [hs]
          · simp [hs, map_eraseExpiry_updateFirst]
        · intro h0
          simp [hempty h0]
      · -- the expiry of the reused row was refreshed
        have hs₁ : s₁ = updateFirst (fun x => x.long_url == L)
            (fun x => { x with expires_at := expOpt }) s := by
          rw [← h2, if_pos (by simp [hsome])]
        have hex₁ : findByLongUrl s₁ L = some { ex with expires_at := expOpt } := by
          rw [hs₁, findByLongUrl, find?_updateFirst_same _ _ hq]
          have h3 : s.find? (fun x => x.long_url == L) = some ex := hex
          rw [h3]
          rfl
        have hsc₁ : ({ ex with expires_at := expOpt } : UrlMap).short_code = some c := hsc
        refine ⟨_, _, shorten_eval_dedup hn hv he' pyStrip_empty hex₁ hsc₁, rfl, ?_, ?_, ?_⟩
        · rcases hs : expOpt'.isSome with _ | _
          · simp [hs]
          · simp [hs, updateFirst_length]
        · rcases hs : expOpt'.isSome with _ | _
          · simp [hs]
          · simp [hs, map_eraseExpiry_updateFirst]
        · intro h0
          simp [hempty h0]

/-- Witness for C6: shortening `https://example.com` twice on an empty
store. -/
theorem shorten_dedup_idempotent_witness :
    ∃ r' s₂,
      shorten [⟨1, "https://example.com", some "1", some 0, some 0, none, none⟩] 5
        "https://example.com" "" "" = (ShortenResult.ok r', s₂) ∧
      r'.code = (⟨"1", "https://example.com", none⟩ : ShortenOk).code ∧
      s₂.length = [(⟨1, "https://example.com", some "1", some 0, some 0, none,
        none⟩ : UrlMap)].length ∧
      s₂.map eraseExpiry = [(⟨1, "https://example.com", some "1", some 0, some 0, none,
        none⟩ : UrlMap)].map eraseExpiry ∧
      (pyStrip "" = "" →
        s₂ = [(⟨1, "https://example.com", some "1", some 0, some 0, none,
          none⟩ : UrlMap)]) :=
  shorten_dedup_idempotent [] [⟨1, "https://example.com", some "1", some 0, some 0, none,
    none⟩] 0 5 "https://example.com" "" ⟨"1", "https://example.com", none⟩ (by decide)

/-- C7: shortening with a regex-valid custom code that is already the
`short_code` of a stored row fails with `code_taken` and the store is
returned unchanged (given that the earlier validation steps pass: the URL is
valid after normalization and the expiry field parses). -/
theorem shorten_code_taken_spec (s : List UrlMap) (now : Int)
    (uraw craw eraw L : String) (expOpt : Option Int)
    (hn : normalize_long_url (pyStrip uraw) = some L)
    (hv : is_valid_url L = true)
    (he : parseExpiry now (pyStrip eraw) = Except.ok expOpt)
    (hvc : validCustomCode (pyStrip craw) = true)
    (htk : (findByCode s (pyStrip craw)).isSome = true) :
    shorten s now uraw craw eraw = (ShortenResult.err ShortenErr.code_taken, s) :=
  shorten_eval_code_taken hn hv he hvc htk

/-- Witness for C7: custom code `abc` collides with a stored row. -/
theorem shorten_code_taken_spec_witness :
    shorten [⟨1, "https://a.com", some "abc", some 0, some 0, none, none⟩] 0
      "https://example.com" "abc" "" =
      (ShortenResult.err ShortenErr.code_taken,
       [⟨1, "https://a.com", some "abc", some 0, some 0, none, none⟩]) :=
  shorten_code_taken_spec
    [⟨1, "https://a.com", some "abc", some 0, some 0, none, none⟩] 0
    "https://example.com" "abc" "" "https://example.com" none rfl rfl rfl rfl rfl

/-- C8: a provided `expires_in_days` that does not parse as a positive
integer fails with `invalid_expiry` and leaves the store unchanged (given a
valid URL); when it parses as a positive `d` and the request succeeds, the
resulting `expires_at` is `now + d` days. -/
theorem shorten_expiry_spec :
    (∀ (s : List UrlMap) (now : Int) (uraw craw eraw L : String),
      normalize_long_url (pyStrip uraw) = some L →
      is_valid_url L = true →
      pyStrip eraw ≠ "" →
      (∀ d, pyInt (pyStrip eraw) = some d → d ≤ 0) →
      shorten s now uraw craw eraw = (ShortenResult.err ShortenErr.invalid_expiry, s)) ∧
    (∀ (s s' : List UrlMap) (now d : Int) (uraw craw eraw : String) (r : ShortenOk),
      pyInt (pyStrip eraw) = some d → 0 < d →
      shorten s now uraw craw eraw = (ShortenResult.ok r, s') →
      r.expires_at = some (now + d * 86400)) := by
  constructor
  · intro s now uraw craw eraw L hn hv hne hbad
    exact shorten_eval_bad_expiry hn hv (parseExpiry_bad now _ hne hbad)
  · intro s s' now d uraw craw eraw r hpi hd h
    have he : parseExpiry now (pyStrip eraw) = Except.ok (some (now + d * 86400)) :=
      parseExpiry_pos now (pyStrip eraw) d hpi hd
    rcases hn : normalize_long_url (pyStrip uraw) with _ | L
    · rw [shorten_eval_exn_normalize hn] at h
      exact absurd (congrArg Prod.fst h) (by simp)
    rcases hv : is_valid_url L with _ | _
    · rw [shorten_eval_invalid_url hn hv] at h
      exact absurd (congrArg Prod.fst h) (by simp)
    by_cases hc : pyStrip craw = ""
    · rcases hex : findByLongUrl s L with _ | ex
      · rw [shorten_eval_insert hn hv he hc hex] at h
        obtain ⟨hr, _, _⟩ := insertNew_ok_inv h
        rw [hr]
      · rcases hsc : ex.short_code with _ | c
        · rw [shorten_eval_dedup_nocode hn hv he hc hex hsc] at h
          exact absurd (congrArg Prod.fst h) (by simp)
        · rw [shorten_eval_dedup hn hv he hc hex hsc] at h
          obtain ⟨h1, _⟩ := Prod.mk.injEq .. ▸ h
          obtain rfl :
              ({ code := c, long_url := L,
                 expires_at := if (some (now + d * 86400)).isSome
                   then some (now + d * 86400)
                   else ex.expires_at } : ShortenOk) = r := by
            injection h1
          simp
    · rcases hvc : validCustomCode (pyStrip craw) with _ | _
      · rw [shorten_eval_invalid_custom hn hv he hc hvc] at h
        exact absurd (congrArg Prod.fst h) (by simp)
      · rcases htk : (findByCode s (pyStrip craw)).isSome with _ | _
        · rw [shorten_eval_custom_insert hn hv he hvc htk] at h
          obtain ⟨hr, _, _⟩ := insertNew_ok_inv h
          rw [hr]
        · rw [shorten_eval_code_taken hn hv he hvc htk] at h
          exact absurd (congrArg Prod.fst h) (by simp)

/-- Witness for C8: `expires_in_days = "-1"` is rejected on an empty store;
`expires_in_days = "5"` yields `expires_at = 0 + 5` days. -/
theorem shorten_expiry_spec_witness :
    shorten [] 0 "https://example.com" "" "-1" =
      (ShortenResult.err ShortenErr.invalid_expiry, []) ∧
    (⟨"1", "https://example.com", some (0 + 5 * 86400)⟩ : ShortenOk).expires_at =
      some (0 + 5 * 86400) :=
  ⟨shorten_expiry_spec.1 [] 0 "https://example.com" "" "-1" "https://example.com"
      rfl rfl (by decide)
      (fun d hd => by
        have h2 : some (-1 : Int) = some d := hd
        injection h2 with h3
        omega),
    shorten_expiry_spec.2 []
      [⟨1, "https://example.com", some "1", some 0, some 0, none, some (0 + 5 * 86400)⟩]
      0 5 "https://example.com" "" "5" ⟨"1", "https://example.com", some (0 + 5 * 86400)⟩
      rfl (by norm_num) (by decide)⟩

end PyShort
